import Mathlib

/-!
Verification of the Split-Generator backend's cost-allocation and
limit-gate logic, shallowly embedded from the JavaScript source.

Numeric embedding: the schema stores `price`, `share_percentage` and
`total_amount` as floating-point columns and `quantity` as an integer;
we embed the finite floating values as rationals and the non-finite
values JavaScript division by zero can produce (`Infinity`,
`-Infinity`, `NaN`) as explicit constructors of `JsNum`, so that the
display fallback `x || 0` (which masks `NaN` but not `Infinity`) can
be modelled faithfully.

The summary endpoint (part_000 lines 326-408) loads each participant's
productParticipants with `include: { product: true }`, which loads the
product's scalar columns only; the handler then reads
`pp.product.productParticipants` (lines 366 and 388-391), a relation
that was never loaded.  For any bill in which a bill participant has
an allocation row the `.reduce` call therefore throws a TypeError and
the endpoint answers 500; the per-participant arithmetic of those
lines is unreachable.  The embedding models this with the crash
predicate `summaryCrashes` and a summary result that is `none` (the
500 response) exactly on crashing bills.  The export endpoint
(lines 411-535) re-queries products with their productParticipants
included, so its arithmetic is real and is embedded in full.
-/

namespace SplitGen

/-- An allocation row (`ProductParticipant` in the schema): links a
participant to a product with a share percentage. -/
structure Alloc where
  participant_id : Nat
  share_percentage : ℚ
deriving Repr, DecidableEq

/-- A product row together with its allocation rows: unit price,
quantity (integer column, default 1), and the product's
`productParticipants`. -/
structure Product where
  price : ℚ
  quantity : Int
  allocs : List Alloc
deriving Repr, DecidableEq

/-- A bill graph as loaded by the route handlers: stated total amount,
the bill's participant ids, and its products with their allocations. -/
structure Bill where
  total_amount : ℚ
  participant_ids : List Nat
  products : List Product
deriving Repr, DecidableEq

/-- `product.price * product.quantity`, the line cost, as computed in
the export handler. -/
def lineCost (p : Product) : ℚ := p.price * (p.quantity : ℚ)

/-- Sum of `share_percentage` over a product's allocations:
`product.participants.reduce((sum, p) => sum + p.share_percentage, 0)`. -/
def totalShare (p : Product) : ℚ := (p.allocs.map (fun a => a.share_percentage)).sum

/-- A JavaScript number as the handlers can produce it: a finite value
(embedded exactly as a rational), `Infinity`, `-Infinity`, or `NaN`. -/
inductive JsNum where
  | fin (q : ℚ)
  | posInf
  | negInf
  | nan
deriving Repr, DecidableEq

/-- JavaScript division: a zero divisor yields `Infinity`, `-Infinity`
or `NaN` according to the sign of the dividend. -/
def jsDiv (a b : ℚ) : JsNum :=
  if b = 0 then
    (if 0 < a then JsNum.posInf else if a < 0 then JsNum.negInf else JsNum.nan)
  else JsNum.fin (a / b)

/-- JavaScript addition on these values: `NaN` absorbs, opposite
infinities give `NaN`, an infinity absorbs finite values. -/
def jsAdd : JsNum → JsNum → JsNum
  | .fin a, .fin b => .fin (a + b)
  | .nan, _ => .nan
  | _, .nan => .nan
  | .posInf, .negInf => .nan
  | .negInf, .posInf => .nan
  | .posInf, _ => .posInf
  | _, .posInf => .posInf
  | .negInf, _ => .negInf
  | _, .negInf => .negInf

/-- The `+=` accumulation loops of the export handler, starting at 0. -/
def jsSum (l : List JsNum) : JsNum := l.foldl jsAdd (.fin 0)

/-- The display fallback `x || 0`: `NaN` (and 0 itself) are falsy in
JavaScript, so a `NaN` total is replaced by 0, while infinities and
other finite values pass through. -/
def orZero : JsNum → JsNum
  | .nan => .fin 0
  | x => x

/-- `Number.prototype.toFixed(2)` as a rational: round to 2 decimal
places, ties toward the larger value. -/
def round2 (q : ℚ) : ℚ := (⌊q * 100 + 1/2⌋ : ℤ) / 100

/-- `toFixed(2)` display of a possibly non-finite value: finite values
are rounded; a non-finite value yields the corresponding non-numeric
string, kept here as the value itself. -/
def round2J : JsNum → JsNum
  | .fin q => .fin (round2 q)
  | x => x

/-- One product's contributions to a given participant's total in the
export handler (part_000 lines 489-499): for each of the product's
allocations referencing that participant, the handler adds
`(totalProductCost * participant.share_percentage) / totalSharePercentage`. -/
def productContribs (p : Product) (pid : Nat) : List JsNum :=
  (p.allocs.filter (fun a => a.participant_id == pid)).map
    (fun a => jsDiv (lineCost p * a.share_percentage) (totalShare p))

/-- The contribution list accumulated for one participant by the export
handler: products guarded by `product.participants.length > 0`, then
each allocation of the product referencing the participant. -/
def exportContribs (b : Bill) (pid : Nat) : List JsNum :=
  b.products.flatMap (fun p =>
    if p.allocs.length > 0 then productContribs p pid else [])

/-- `participantTotals[...]` as accumulated by the export handler. -/
def exportParticipantTotal (b : Bill) (pid : Nat) : JsNum :=
  jsSum (exportContribs b pid)

/-- `share_amount` for one allocation in the export response (part_000
lines 516-520): the weighted amount, displayed via `toFixed(2)` with no
`|| 0` masking. -/
def exportShareAmount (p : Product) (a : Alloc) : JsNum :=
  round2J (jsDiv (lineCost p * a.share_percentage) (totalShare p))

/-- One product entry of the export response: price and total_cost
(both `toFixed(2)`) and the share_amount of each allocation. -/
structure ProductOut where
  price : ℚ
  total_cost : ℚ
  share_amounts : List JsNum
deriving Repr, DecidableEq

/-- A product entry as built by the export handler. -/
def exportProductOut (p : Product) : ProductOut :=
  { price := round2 p.price
    total_cost := round2 (lineCost p)
    share_amounts := p.allocs.map (exportShareAmount p) }

/-- The products array of the export response (part_000 lines 512-521):
one entry per product of the bill. -/
def exportProducts (b : Bill) : List ProductOut :=
  b.products.map exportProductOut

/-- The shape shared by the summary and export responses: bill
total_amount, per-participant total_owed, products array, and the
summary block (total_items, total_participants, total_amount). -/
structure ResponseOut where
  bill_total : ℚ
  owed : List (Nat × JsNum)
  products : List ProductOut
  total_items : Nat
  total_participants : Nat
  summary_total : ℚ
deriving Repr, DecidableEq

/-- The full export response (part_000 lines 501-528).  Each displayed
total_owed is `parseFloat(participantTotals[p.id] || 0).toFixed(2)`:
the accumulated total masked by `|| 0` and then rounded. -/
def exportOf (b : Bill) : ResponseOut :=
  { bill_total := round2 b.total_amount
    owed := b.participant_ids.map (fun pid =>
      (pid, round2J (orZero (exportParticipantTotal b pid))))
    products := exportProducts b
    total_items := b.products.length
    total_participants := b.participant_ids.length
    summary_total := round2 b.total_amount }

/-- The summary handler reads `pp.product.productParticipants` (line
366), a relation its query (lines 339-349, `include: { product: true }`)
never loads: the read throws a TypeError whenever some bill participant
has an allocation row.  This predicate marks exactly those bills. -/
def summaryCrashes (b : Bill) : Bool :=
  b.participant_ids.any (fun pid =>
    b.products.any (fun p => p.allocs.any (fun a => a.participant_id == pid)))

/-- GET /:id/summary (part_000 lines 326-408): `none` models the 500
response produced by the TypeError on the unloaded relation.  In the
surviving branch no bill participant has an allocation row, so every
accumulated total is still its initial 0 (displayed through the same
`|| 0` and `toFixed(2)` as the export), the flatMapped
productParticipants arrays are empty, and total_items is 0. -/
def summaryResult (b : Bill) : Option ResponseOut :=
  if summaryCrashes b then none
  else some
    { bill_total := round2 b.total_amount
      owed := b.participant_ids.map (fun pid => (pid, round2J (orZero (.fin 0))))
      products := []
      total_items := 0
      total_participants := b.participant_ids.length
      summary_total := round2 b.total_amount }

/-- The outcome of a request: 404, 500, or a JSON response. -/
inductive HandlerResult where
  | notFound
  | errored
  | ok (r : ResponseOut)
deriving Repr, DecidableEq

/-- The persisted state read by the summary/export handlers: the bill
rows (with their graphs), keyed by id. -/
structure DB where
  bills : List (Nat × Bill)
deriving Repr, DecidableEq

/-- `prisma.bill.findFirst({ where: { id } })`: a pure read. -/
def findBill (db : DB) (bid : Nat) : Option Bill :=
  (db.bills.find? (fun x => x.1 == bid)).map (fun x => x.2)

/-- GET /:id/summary as a state transformer.  The handler issues only
find queries, so it returns the state it was given; the response is a
404 when the bill is missing, the 500 of the TypeError on bills with
allocation rows, and the degenerate success response otherwise. -/
def summaryHandler (db : DB) (bid : Nat) : DB × HandlerResult :=
  match findBill db bid with
  | none => (db, .notFound)
  | some b =>
      match summaryResult b with
      | none => (db, .errored)
      | some r => (db, .ok r)

/-- GET /:id/export as a state transformer: likewise read-only, and it
always succeeds once the bill is found. -/
def exportHandler (db : DB) (bid : Nat) : DB × HandlerResult :=
  match findBill db bid with
  | none => (db, .notFound)
  | some b => (db, .ok (exportOf b))

/-- PUT /:id as a state transformer, for contrast: it rewrites the bill
row's total_amount, so the returned state differs from the input. -/
def updateBillHandler (db : DB) (bid : Nat) (newTotal : ℚ) : DB × Bool :=
  match findBill db bid with
  | none => (db, false)
  | some b =>
      ({ bills := db.bills.map (fun x =>
          if x.1 == bid then (x.1, { b with total_amount := newTotal }) else x) },
       true)

/-- A participant's aggregate amount from the analytics participant-owes
endpoint (part_002 lines 143-148, part_003 lines 101-110):
`price * quantity * share_percentage / 100` summed over the
participant's allocation rows — the divisor is the constant 100. -/
def analyticsAmount (b : Bill) (pid : Nat) : ℚ :=
  (b.products.flatMap (fun p =>
    (p.allocs.filter (fun a => a.participant_id == pid)).map
      (fun a => lineCost p * a.share_percentage / 100))).sum

/-- Modelled from the spec: `computed_total`, the sum of all product
line costs.  The source never computes this quantity. -/
def computedTotal (b : Bill) : ℚ := (b.products.map lineCost).sum

/-- Modelled from the spec: `allocated_total`, the sum of all
participant owed amounts, built over the export handler's
per-participant totals.  The source never computes this quantity. -/
def allocatedTotal (b : Bill) : JsNum :=
  jsSum (b.participant_ids.map (fun pid => exportParticipantTotal b pid))

/-- Modelled from the spec: the orphaned amount, the total line cost of
products with no allocations.  The source never computes this quantity. -/
def orphanedTotal (b : Bill) : ℚ :=
  ((b.products.filter (fun p => p.allocs.isEmpty)).map lineCost).sum

/-- The bill with the products that have no allocations removed. -/
def dropEmptyAlloc (b : Bill) : Bill :=
  { b with products := b.products.filter (fun p => !p.allocs.isEmpty) }

/-- The exact (finite) value of one allocation's contribution when the
product's share-sum is nonzero. -/
def realContrib (p : Product) (a : Alloc) : ℚ :=
  lineCost p * a.share_percentage / totalShare p

/-- The exact per-participant total when every division is finite. -/
def realTotal (b : Bill) (pid : Nat) : ℚ :=
  (b.products.map (fun p =>
    ((p.allocs.filter (fun a => a.participant_id == pid)).map (realContrib p)).sum)).sum

/-- Allocations created by POST /:id/products and by
PUT /:billId/products/:productId (part_000 lines 222-233 and 270-288):
one row per entry of participant_ids, each with share percentage
`100 / participant_ids.length`. -/
def mkAllocs (pids : List Nat) : List Alloc :=
  pids.map (fun pid =>
    { participant_id := pid, share_percentage := 100 / (pids.length : ℚ) })

/-- The columns of the users row read by PremiumService.getUserLimits
(schema defaults: bills_limit 3, participants_limit 5, templates_limit 2). -/
structure UserRow where
  subscription_status : String
  bills_limit : Int
  participants_limit : Int
  templates_limit : Int
deriving Repr, DecidableEq

/-- The record returned by PremiumService.getUserLimits, given the
user's row and the two usage counts queried from the database. -/
structure LimitsOut where
  subscription_status : String
  bills_created_this_month : Int
  bills_remaining : Int
  participants_limit : Int
  templates_count : Int
  templates_remaining : Int
deriving Repr, DecidableEq

/-- PremiumService.getUserLimits (premiumService.js lines 23-66,
part_005 lines 22-72): remaining quotas are `Math.max(0, limit - count)`. -/
def getUserLimits (u : UserRow) (billsCount templatesCount : Int) : LimitsOut :=
  { subscription_status := u.subscription_status
    bills_created_this_month := billsCount
    bills_remaining := max 0 (u.bills_limit - billsCount)
    participants_limit := u.participants_limit
    templates_count := templatesCount
    templates_remaining := max 0 (u.templates_limit - templatesCount) }

/-- PremiumService.canCreateBill: premium status short-circuits to true,
otherwise the monthly remaining quota must be positive. -/
def canCreateBill (u : UserRow) (billsCount templatesCount : Int) : Bool :=
  let limits := getUserLimits u billsCount templatesCount
  if limits.subscription_status = "premium" then true
  else limits.bills_remaining > 0

/-- PremiumService.canAddParticipants: premium status short-circuits to
true, otherwise the bill's current participant count must be below the
participant limit. -/
def canAddParticipants (u : UserRow) (billsCount templatesCount currentCount : Int) : Bool :=
  let limits := getUserLimits u billsCount templatesCount
  if limits.subscription_status = "premium" then true
  else currentCount < limits.participants_limit

/-- PremiumService.canCreateTemplate: premium status short-circuits to
true, otherwise the remaining template quota must be positive. -/
def canCreateTemplate (u : UserRow) (billsCount templatesCount : Int) : Bool :=
  let limits := getUserLimits u billsCount templatesCount
  if limits.subscription_status = "premium" then true
  else limits.templates_remaining > 0

/-- The rational values of a possibly non-finite amount (a non-finite
value carries no rational). -/
def jsNumVals : JsNum → List ℚ
  | .fin q => [q]
  | _ => []

/-- Every rational value appearing in a product entry of a response. -/
def productOutNums (po : ProductOut) : List ℚ :=
  po.price :: po.total_cost :: po.share_amounts.flatMap jsNumVals

/-- Every numeric value appearing anywhere in a response (counts
included, cast to ℚ). -/
def responseNums (s : ResponseOut) : List ℚ :=
  s.bill_total :: s.summary_total :: (s.total_items : ℚ) :: (s.total_participants : ℚ) ::
    ((s.owed.flatMap (fun x => jsNumVals x.2)) ++ s.products.flatMap productOutNums)

/-! ### Concrete inputs used to settle the claims -/

/-- A bill with one product whose single share is 50 (shares sum to 50,
not 100): stated total 30, product price 10, quantity 1. -/
def exC1 : Bill := ⟨30, [1], [⟨10, 1, [⟨1, 50⟩]⟩]⟩

/-- A bill with stated total 30 and two fully allocated products of line
costs 10 and 7 (computed total 17): the summary endpoint crashes here. -/
def exC2 : Bill := ⟨30, [1, 2], [⟨10, 1, [⟨1, 50⟩]⟩, ⟨7, 1, [⟨1, 50⟩, ⟨2, 50⟩]⟩]⟩

/-- An allocation-free bill (stated total 30, one product of line cost
4): the only kind of bill whose summary request succeeds. -/
def exC2b : Bill := ⟨30, [1], [⟨4, 1, []⟩]⟩

/-- A bill with one allocated product (shares summing to 75) and one
product with no allocations (orphaned line cost 4). -/
def exC2w : Bill := ⟨30, [1], [⟨10, 1, [⟨1, 50⟩]⟩, ⟨4, 1, []⟩]⟩

/-- A 10.00 product split three ways with the equal shares 100/3 the
product routes would store. -/
def exC3 : Product := ⟨10, 1, [⟨1, 100 / 3⟩, ⟨2, 100 / 3⟩, ⟨3, 100 / 3⟩]⟩

/-- The spec's scenario: a 9.99 product split three ways. -/
def exC3b : Product := ⟨999 / 100, 1, [⟨1, 100 / 3⟩, ⟨2, 100 / 3⟩, ⟨3, 100 / 3⟩]⟩

/-- A product whose only allocation carries share 0: the share-sum is 0. -/
def exC4 : Product := ⟨10, 1, [⟨1, 0⟩]⟩

/-- A bill with a zero-share-sum product (price 10) and a valid product
(price 6 split 50/50 between participants 1 and 2). -/
def exC5 : Bill := ⟨0, [1, 2], [⟨10, 1, [⟨1, 0⟩]⟩, ⟨6, 1, [⟨1, 50⟩, ⟨2, 50⟩]⟩]⟩

/-- A bill with one product shared by two participants. -/
def exC6 : Bill := ⟨20, [1, 2], [⟨10, 1, [⟨1, 50⟩, ⟨2, 50⟩]⟩]⟩

/-- An allocation-free bill with one product, for comparing the two
endpoints in the only regime where both respond. -/
def exC6b : Bill := ⟨20, [1], [⟨5, 1, []⟩]⟩

/-- A single-bill database whose bill has an allocation row. -/
def exDB : DB := ⟨[(1, ⟨20, [1], [⟨8, 1, [⟨1, 100⟩]⟩]⟩)]⟩

/-- A user row with the free-tier schema defaults 3/5/2. -/
def freeUser : UserRow := ⟨"free", 3, 5, 2⟩

/-- A user row with premium status. -/
def premiumUser : UserRow := ⟨"premium", 3, 5, 2⟩

/-! ### Arithmetic lemmas about the JavaScript value model -/

theorem jsAdd_nan_left (x : JsNum) : jsAdd .nan x = .nan := by
  cases x <;> rfl

theorem jsAdd_nan_right (x : JsNum) : jsAdd x .nan = .nan := by
  cases x <;> rfl

theorem jsAdd_assoc (a b c : JsNum) :
    jsAdd (jsAdd a b) c = jsAdd a (jsAdd b c) := by
  cases a <;> cases b <;> cases c <;> simp [jsAdd, add_assoc]

theorem jsAdd_zero_left (a : JsNum) : jsAdd (.fin 0) a = a := by
  cases a <;> simp [jsAdd]

theorem jsAdd_zero_right (a : JsNum) : jsAdd a (.fin 0) = a := by
  cases a <;> simp [jsAdd]

theorem foldl_jsAdd (l : List JsNum) :
    ∀ acc : JsNum, l.foldl jsAdd acc = jsAdd acc (jsSum l) := by
  induction l with
  | nil => intro acc; simp [jsSum, List.foldl, jsAdd_zero_right]
  | cons x l ih =>
    intro acc
    have h2 : jsSum (x :: l) = jsAdd x (jsSum l) := by
      show (x :: l).foldl jsAdd (.fin 0) = _
      rw [List.foldl_cons, ih (jsAdd (.fin 0) x), jsAdd_zero_left]
    rw [List.foldl_cons, ih (jsAdd acc x), h2, jsAdd_assoc]

theorem jsSum_cons (x : JsNum) (l : List JsNum) :
    jsSum (x :: l) = jsAdd x (jsSum l) := by
  show (x :: l).foldl jsAdd (.fin 0) = _
  rw [List.foldl_cons, foldl_jsAdd l (jsAdd (.fin 0) x), jsAdd_zero_left]

theorem jsSum_append (l₁ l₂ : List JsNum) :
    jsSum (l₁ ++ l₂) = jsAdd (jsSum l₁) (jsSum l₂) := by
  show (l₁ ++ l₂).foldl jsAdd (.fin 0) = _
  rw [List.foldl_append, foldl_jsAdd l₂ (l₁.foldl jsAdd (.fin 0))]
  rfl

theorem jsSum_map_fin (l : List ℚ) : jsSum (l.map JsNum.fin) = .fin l.sum := by
  induction l with
  | nil => rfl
  | cons x l ih => rw [List.map_cons, jsSum_cons, ih, List.sum_cons]; rfl

theorem jsSum_eq_nan (l : List JsNum) (h : .nan ∈ l) : jsSum l = .nan := by
  induction l with
  | nil => cases h
  | cons x l ih =>
    rw [jsSum_cons]
    rcases List.mem_cons.mp h with hx | hl
    · rw [← hx, jsAdd_nan_left]
    · rw [ih hl, jsAdd_nan_right]

theorem jsAdd_ne_fin_left (x y : JsNum) (h : ∀ q : ℚ, x ≠ .fin q) :
    ∀ q : ℚ, jsAdd x y ≠ .fin q := by
  cases x with
  | fin a => exact absurd rfl (h a)
  | posInf => cases y <;> intro q <;> simp [jsAdd]
  | negInf => cases y <;> intro q <;> simp [jsAdd]
  | nan => cases y <;> intro q <;> simp [jsAdd]

theorem jsAdd_ne_fin_right (x y : JsNum) (h : ∀ q : ℚ, y ≠ .fin q) :
    ∀ q : ℚ, jsAdd x y ≠ .fin q := by
  cases y with
  | fin b => exact absurd rfl (h b)
  | posInf => cases x <;> intro q <;> simp [jsAdd]
  | negInf => cases x <;> intro q <;> simp [jsAdd]
  | nan => cases x <;> intro q <;> simp [jsAdd]

/-- Non-finiteness propagates through the accumulation: a list with a
non-finite member has a non-finite sum. -/
theorem jsSum_not_fin (l : List JsNum) (c : JsNum) (hc : c ∈ l)
    (hnf : ∀ q : ℚ, c ≠ .fin q) : ∀ q : ℚ, jsSum l ≠ .fin q := by
  induction l with
  | nil => cases hc
  | cons x l ih =>
    rw [jsSum_cons]
    rcases List.mem_cons.mp hc with hx | hl
    · exact jsAdd_ne_fin_left _ _ (hx ▸ hnf)
    · exact jsAdd_ne_fin_right _ _ (ih hl)

/-! ### Sum-manipulation lemmas -/

theorem sum_map_add {α : Type} (l : List α) (f g : α → ℚ) :
    (l.map (fun x => f x + g x)).sum = (l.map f).sum + (l.map g).sum := by
  induction l with
  | nil => simp
  | cons x l ih => simp [ih]; ring

theorem sum_map_zero {α : Type} (l : List α) :
    (l.map (fun _ => (0 : ℚ))).sum = 0 := by
  induction l with
  | nil => rfl
  | cons x l ih => simp [ih]

theorem sum_sum_comm {α β : Type} (l₁ : List α) (l₂ : List β) (f : α → β → ℚ) :
    (l₁.map (fun x => (l₂.map (fun y => f x y)).sum)).sum
      = (l₂.map (fun y => (l₁.map (fun x => f x y)).sum)).sum := by
  induction l₁ with
  | nil => simp [sum_map_zero]
  | cons x l₁ ih => simp only [List.map_cons, List.sum_cons, ih, sum_map_add]

theorem sum_map_ite_zero (pids : List Nat) (x : Nat) (c : ℚ) (hx : x ∉ pids) :
    (pids.map (fun pid => if (x == pid) = true then c else 0)).sum = 0 := by
  induction pids with
  | nil => rfl
  | cons p rest ih =>
    have hxp : ¬((x == p) = true) := by
      simp only [beq_iff_eq]
      intro he; exact hx (he ▸ List.mem_cons_self p rest)
    simp only [List.map_cons, List.sum_cons, if_neg hxp, zero_add]
    exact ih (fun hm => hx (List.mem_cons_of_mem p hm))

theorem sum_map_ite_single (pids : List Nat) (x : Nat) (c : ℚ)
    (hnd : pids.Nodup) (hx : x ∈ pids) :
    (pids.map (fun pid => if (x == pid) = true then c else 0)).sum = c := by
  induction pids with
  | nil => cases hx
  | cons p rest ih =>
    rcases List.mem_cons.mp hx with he | hm
    · subst he
      have hnr : x ∉ rest := (List.nodup_cons.mp hnd).1
      simp only [List.map_cons, List.sum_cons, beq_self_eq_true, if_pos rfl,
        sum_map_ite_zero rest x c hnr, add_zero]
      simp
    · have hxp : ¬((x == p) = true) := by
        simp only [beq_iff_eq]
        intro he
        exact (List.nodup_cons.mp hnd).1 (he ▸ hm)
      simp only [List.map_cons, List.sum_cons, if_neg hxp, zero_add]
      exact ih (List.nodup_cons.mp hnd).2 hm

/-- Summing a per-participant filtered total over a duplicate-free list
of participant ids that covers every allocation recovers the plain sum
over the allocations. -/
theorem sum_filter_partition (f : Alloc → ℚ) (pids : List Nat) (hnd : pids.Nodup) :
    ∀ allocs : List Alloc, (∀ a ∈ allocs, a.participant_id ∈ pids) →
      (pids.map (fun pid =>
        ((allocs.filter (fun a => a.participant_id == pid)).map f).sum)).sum
        = (allocs.map f).sum := by
  intro allocs
  induction allocs with
  | nil => intro _; simp
  | cons a rest ih =>
    intro hcov
    have hterm : ∀ pid : Nat,
        (((a :: rest).filter (fun t => t.participant_id == pid)).map f).sum
          = (if (a.participant_id == pid) = true then f a else 0)
            + ((rest.filter (fun t => t.participant_id == pid)).map f).sum := by
      intro pid
      by_cases h : (a.participant_id == pid) = true
      · simp [List.filter_cons, h]
      · simp [List.filter_cons, h]
    simp only [hterm, sum_map_add]
    rw [sum_map_ite_single pids a.participant_id (f a) hnd
        (hcov a (List.mem_cons_self a rest)),
      ih (fun t ht => hcov t (List.mem_cons_of_mem a ht))]
    simp

/-! ### Per-product allocation lemmas -/

/-- With a nonzero share-sum, the exact weighted amounts of a product's
allocations sum to the product's full line cost. -/
theorem sum_realContrib (p : Product) (h : totalShare p ≠ 0) :
    (p.allocs.map (realContrib p)).sum = lineCost p := by
  have hmap : p.allocs.map (realContrib p)
      = p.allocs.map (fun a => (lineCost p / totalShare p) * a.share_percentage) := by
    apply List.map_congr_left
    intro a _
    unfold realContrib
    ring
  rw [hmap, List.sum_map_mul_left]
  show lineCost p / totalShare p * totalShare p = lineCost p
  exact div_mul_cancel₀ _ h

theorem productContribs_ne_nil_iff (p : Product) (pid : Nat) :
    productContribs p pid ≠ [] ↔
      p.allocs.filter (fun a => a.participant_id == pid) ≠ [] := by
  unfold productContribs
  rw [not_iff_not, List.map_eq_nil_iff]

/-- When the relevant divisions are finite, one product's accumulated
contribution is the exact filtered weighted sum. -/
theorem jsSum_productContribs (p : Product) (pid : Nat)
    (h : productContribs p pid ≠ [] → totalShare p ≠ 0) :
    jsSum (productContribs p pid)
      = .fin (((p.allocs.filter (fun a => a.participant_id == pid)).map
          (realContrib p)).sum) := by
  by_cases hc : productContribs p pid = []
  · have hf : p.allocs.filter (fun a => a.participant_id == pid) = [] := by
      have := (not_iff_not.mpr (productContribs_ne_nil_iff p pid)).mp
      simpa using this (by simpa using hc)
    rw [hc, hf]
    rfl
  · have ht := h hc
    unfold productContribs
    have hmap : (p.allocs.filter (fun a => a.participant_id == pid)).map
          (fun a => jsDiv (lineCost p * a.share_percentage) (totalShare p))
        = ((p.allocs.filter (fun a => a.participant_id == pid)).map
            (realContrib p)).map JsNum.fin := by
      rw [List.map_map]
      apply List.map_congr_left
      intro a _
      simp only [Function.comp, jsDiv, if_neg ht, realContrib]
    rw [hmap, jsSum_map_fin]

/-- The accumulation over a product list, when every division is
finite, equals the exact per-participant total. -/
theorem jsSum_flatMap_products (pid : Nat) :
    ∀ l : List Product, (∀ p ∈ l, productContribs p pid ≠ [] → totalShare p ≠ 0) →
      jsSum (l.flatMap (fun p => productContribs p pid))
        = .fin ((l.map (fun p =>
            ((p.allocs.filter (fun a => a.participant_id == pid)).map
              (realContrib p)).sum)).sum) := by
  intro l
  induction l with
  | nil => intro _; rfl
  | cons p rest ih =>
    intro h
    rw [List.flatMap_cons, jsSum_append,
      jsSum_productContribs p pid (h p (List.mem_cons_self p rest)),
      ih (fun q hq => h q (List.mem_cons_of_mem p hq))]
    simp [jsAdd, List.map_cons, List.sum_cons]

theorem productContribs_nil (p : Product) (pid : Nat) (h : p.allocs = []) :
    productContribs p pid = [] := by
  unfold productContribs
  rw [h]
  rfl

theorem allocs_ne_nil_of_contribs (p : Product) (pid : Nat)
    (hc : productContribs p pid ≠ []) : p.allocs ≠ [] :=
  fun he => hc (productContribs_nil p pid he)

/-- The export guard `product.participants.length > 0` only skips
products whose contribution list is empty anyway. -/
theorem exportContribs_eq_flatMap (b : Bill) (pid : Nat) :
    exportContribs b pid = b.products.flatMap (fun p => productContribs p pid) := by
  unfold exportContribs
  congr 1
  funext p
  by_cases h : p.allocs.length > 0
  · rw [if_pos h]
  · rw [if_neg h]
    exact (productContribs_nil p pid (List.length_eq_zero.mp (by omega))).symm

/-- The export handler's per-participant total is finite and exact when
every product contributing to this participant has a nonzero share-sum. -/
theorem exportParticipantTotal_eq_real (b : Bill) (pid : Nat)
    (h : ∀ p ∈ b.products, productContribs p pid ≠ [] → totalShare p ≠ 0) :
    exportParticipantTotal b pid = .fin (realTotal b pid) := by
  unfold exportParticipantTotal realTotal
  rw [exportContribs_eq_flatMap]
  exact jsSum_flatMap_products pid b.products h

/-- When every allocated product has a nonzero share-sum, the sum of
the export totals over all participants is finite and equal to the sum
of the exact per-participant totals. -/
theorem allocatedTotal_eq (b : Bill)
    (hshare : ∀ p ∈ b.products, p.allocs ≠ [] → totalShare p ≠ 0) :
    allocatedTotal b
      = .fin ((b.participant_ids.map (fun pid => realTotal b pid)).sum) := by
  unfold allocatedTotal
  have hmap : b.participant_ids.map (fun pid => exportParticipantTotal b pid)
      = (b.participant_ids.map (fun pid => realTotal b pid)).map JsNum.fin := by
    rw [List.map_map]
    apply List.map_congr_left
    intro pid _
    exact exportParticipantTotal_eq_real b pid
      (fun p hp hc => hshare p hp (allocs_ne_nil_of_contribs p pid hc))
  rw [hmap, jsSum_map_fin]

theorem sum_ite_filter (l : List Product) :
    (l.map (fun p => if p.allocs.isEmpty then 0 else lineCost p)).sum
      = (l.map lineCost).sum
        - ((l.filter (fun p => p.allocs.isEmpty)).map lineCost).sum := by
  induction l with
  | nil => simp
  | cons p rest ih =>
    by_cases h : p.allocs.isEmpty
    · simp only [List.map_cons, List.sum_cons, if_pos h, List.filter_cons, h,
        ite_true, ih]
      ring
    · simp only [List.map_cons, List.sum_cons, if_neg h, List.filter_cons, h,
        Bool.false_eq_true, ite_false, ih]
      ring

/-- Reconciliation identity for the export computation: when every
allocated product has a nonzero share-sum, when the participant-id list
is duplicate-free, and when every allocation references a participant of
the bill, the total allocated over all participants equals the computed
total minus the orphaned total. -/
theorem allocated_add_orphaned (b : Bill)
    (hshare : ∀ p ∈ b.products, p.allocs ≠ [] → totalShare p ≠ 0)
    (hcov : ∀ p ∈ b.products, ∀ a ∈ p.allocs, a.participant_id ∈ b.participant_ids)
    (hnd : b.participant_ids.Nodup) :
    allocatedTotal b = .fin (computedTotal b - orphanedTotal b) := by
  rw [allocatedTotal_eq b hshare]
  congr 1
  unfold realTotal
  rw [sum_sum_comm b.participant_ids b.products (fun pid p =>
    ((p.allocs.filter (fun a => a.participant_id == pid)).map (realContrib p)).sum)]
  have h1 : b.products.map (fun p => (b.participant_ids.map (fun pid =>
        ((p.allocs.filter (fun a => a.participant_id == pid)).map
          (realContrib p)).sum)).sum)
      = b.products.map (fun p => (p.allocs.map (realContrib p)).sum) :=
    List.map_congr_left (fun p hp =>
      sum_filter_partition (realContrib p) b.participant_ids hnd p.allocs (hcov p hp))
  rw [h1]
  have h2 : b.products.map (fun p => (p.allocs.map (realContrib p)).sum)
      = b.products.map (fun p => if p.allocs.isEmpty then 0 else lineCost p) := by
    apply List.map_congr_left
    intro p hp
    by_cases he : p.allocs = []
    · simp [he]
    · rw [if_neg (by simpa using he)]
      exact sum_realContrib p (hshare p hp he)
  rw [h2, sum_ite_filter]
  rfl

/-- Products with no allocations contribute nothing to the export
accumulation: dropping them leaves every contribution list unchanged. -/
theorem exportContribs_dropEmpty (b : Bill) (pid : Nat) :
    exportContribs b pid = exportContribs (dropEmptyAlloc b) pid := by
  rw [exportContribs_eq_flatMap, exportContribs_eq_flatMap]
  show b.products.flatMap _
    = (b.products.filter (fun p => !p.allocs.isEmpty)).flatMap _
  induction b.products with
  | nil => rfl
  | cons p rest ih =>
    by_cases h : p.allocs.isEmpty
    · rw [List.flatMap_cons, List.filter_cons, if_neg (by simp [h]),
        productContribs_nil p pid (by simpa using h), List.nil_append, ih]
    · rw [List.flatMap_cons, List.filter_cons, if_pos (by simp [h]),
        List.flatMap_cons, ih]

theorem exportParticipantTotal_dropEmpty (b : Bill) (pid : Nat) :
    exportParticipantTotal b pid = exportParticipantTotal (dropEmptyAlloc b) pid := by
  unfold exportParticipantTotal
  rw [exportContribs_dropEmpty]

/-- A product with a zero share-sum yields only non-finite
contributions: each is a division by zero. -/
theorem productContribs_not_fin (p : Product) (pid : Nat) (hz : totalShare p = 0) :
    ∀ c ∈ productContribs p pid, ∀ q : ℚ, c ≠ .fin q := by
  intro c hc q
  unfold productContribs at hc
  rcases List.mem_map.mp hc with ⟨a, _, rfl⟩
  unfold jsDiv
  rw [if_pos hz]
  by_cases h1 : 0 < lineCost p * a.share_percentage
  · simp [h1]
  · by_cases h2 : lineCost p * a.share_percentage < 0 <;> simp [h1, h2]

/-- When all of a product's shares are zero, every contribution is
`0 / 0`, i.e. NaN. -/
theorem productContribs_nan (p : Product) (pid : Nat)
    (hz : ∀ a ∈ p.allocs, a.share_percentage = 0) :
    ∀ c ∈ productContribs p pid, c = .nan := by
  intro c hc
  unfold productContribs at hc
  rcases List.mem_map.mp hc with ⟨a, ha, rfl⟩
  have ha0 : a.share_percentage = 0 := hz a (List.mem_filter.mp ha).1
  have ht : totalShare p = 0 := by
    unfold totalShare
    apply List.sum_eq_zero
    intro x hx
    rcases List.mem_map.mp hx with ⟨a2, ha2, rfl⟩
    exact hz a2 ha2
  simp [jsDiv, ht, ha0]

/-- A participant allocated to an all-zero-shares product of the bill
gets a NaN export total. -/
theorem exportParticipantTotal_nan (b : Bill) (pid : Nat) (p : Product)
    (hp : p ∈ b.products) (hz : ∀ a ∈ p.allocs, a.share_percentage = 0)
    (hc : productContribs p pid ≠ []) :
    exportParticipantTotal b pid = .nan := by
  unfold exportParticipantTotal
  rw [exportContribs_eq_flatMap]
  apply jsSum_eq_nan
  rcases List.exists_mem_of_ne_nil _ hc with ⟨c, hcm⟩
  have hn := productContribs_nan p pid hz c hcm
  rw [← hn]
  exact List.mem_flatMap.mpr ⟨p, hp, hcm⟩

/-- A participant allocated to a zero-share-sum product of the bill
gets a non-finite export total. -/
theorem exportParticipantTotal_not_fin (b : Bill) (pid : Nat) (p : Product)
    (hp : p ∈ b.products) (hz : totalShare p = 0)
    (hc : productContribs p pid ≠ []) :
    ∀ q : ℚ, exportParticipantTotal b pid ≠ .fin q := by
  unfold exportParticipantTotal
  rw [exportContribs_eq_flatMap]
  rcases List.exists_mem_of_ne_nil _ hc with ⟨c, hcm⟩
  exact jsSum_not_fin _ c (List.mem_flatMap.mpr ⟨p, hp, hcm⟩)
    (productContribs_not_fin p pid hz c hcm)

/-! ### Lemmas about the summary crash -/

/-- An allocation row referencing a bill participant makes the summary
handler crash. -/
theorem summaryCrashes_true (b : Bill) (pid : Nat) (p : Product) (a : Alloc)
    (hpid : pid ∈ b.participant_ids) (hp : p ∈ b.products) (ha : a ∈ p.allocs)
    (hapid : a.participant_id = pid) : summaryCrashes b = true := by
  unfold summaryCrashes
  rw [List.any_eq_true]
  refine ⟨pid, hpid, ?_⟩
  rw [List.any_eq_true]
  refine ⟨p, hp, ?_⟩
  rw [List.any_eq_true]
  exact ⟨a, ha, by simp [hapid]⟩

/-- A crashing bill's summary request answers 500. -/
theorem summaryResult_eq_none (b : Bill) (h : summaryCrashes b = true) :
    summaryResult b = none := by
  simp [summaryResult, h]

/-- A non-crashing bill's summary request succeeds, with the fixed
degenerate response body. -/
theorem summaryResult_no_crash (b : Bill) (h : summaryCrashes b = false) :
    summaryResult b = some
      { bill_total := round2 b.total_amount
        owed := b.participant_ids.map (fun pid => (pid, round2J (orZero (.fin 0))))
        products := []
        total_items := 0
        total_participants := b.participant_ids.length
        summary_total := round2 b.total_amount } := by
  simp [summaryResult, h]

/-- On a non-crashing bill, no allocation references any bill
participant. -/
theorem not_crash_filter_nil (b : Bill) (h : summaryCrashes b = false)
    (pid : Nat) (hpid : pid ∈ b.participant_ids) (p : Product) (hp : p ∈ b.products) :
    p.allocs.filter (fun a => a.participant_id == pid) = [] := by
  simp only [summaryCrashes, List.any_eq_false, Bool.not_eq_true] at h
  rw [List.filter_eq_nil_iff]
  intro a ha
  simp [h pid hpid p hp a ha]

/-- On a non-crashing bill, every bill participant's export total is
exactly 0. -/
theorem exportTotal_zero_of_not_crash (b : Bill) (h : summaryCrashes b = false)
    (pid : Nat) (hpid : pid ∈ b.participant_ids) :
    exportParticipantTotal b pid = .fin 0 := by
  unfold exportParticipantTotal
  rw [exportContribs_eq_flatMap]
  have h2 : b.products.flatMap (fun p => productContribs p pid) = [] := by
    rw [List.flatMap_eq_nil_iff]
    intro p hp
    unfold productContribs
    rw [not_crash_filter_nil b h pid hpid p hp]
    rfl
  rw [h2]
  rfl

/-! ### Claim C1 -/

/-- C1, counterexample: the claim asserts that every owed-amount
computation, the analytics participant-owes endpoint included, divides
cost by the sum of the product's shares.  On a product whose only
share is 50, the claimed formula gives the full cost 10, but the
analytics amount is 5 (those endpoints divide by the constant 100) —
and the summary endpoint cited as a source answers 500 on this bill
(it has an allocation row), producing no owed amount at all. -/
theorem C1_counterexample :
    analyticsAmount exC1 1 = 5 ∧
    lineCost ⟨10, 1, [⟨1, 50⟩]⟩ * 50 / totalShare ⟨10, 1, [⟨1, 50⟩]⟩ = 10 ∧
    (5 : ℚ) ≠ 10 ∧
    summaryResult exC1 = none := by
  refine ⟨?_, ?_, by norm_num, ?_⟩
  · norm_num [exC1, analyticsAmount, lineCost]
  · norm_num [lineCost, totalShare]
  · exact summaryResult_eq_none exC1 rfl

/-- C1, amended: the export endpoint's owed contribution for a product
is (price x quantity) x share / (sum of the product's shares), which
holds even when the shares do not sum to 100; the analytics
participant-owes endpoints instead divide by the constant 100; and the
summary endpoint cited by the claim computes no owed amount at all for
an allocated product — it answers 500 (TypeError on the unloaded
pp.product.productParticipants relation). -/
theorem C1_amended (t : ℚ) (pids : List Nat) (p : Product) (a : Alloc) (pid : Nat)
    (hfilter : p.allocs.filter (fun x => x.participant_id == pid) = [a])
    (ht : totalShare p ≠ 0) (hpid : pid ∈ pids) :
    exportParticipantTotal ⟨t, pids, [p]⟩ pid
        = .fin (lineCost p * a.share_percentage / totalShare p) ∧
    analyticsAmount ⟨t, pids, [p]⟩ pid
        = lineCost p * a.share_percentage / 100 ∧
    summaryResult ⟨t, pids, [p]⟩ = none := by
  have hmem := List.mem_filter.mp (hfilter ▸ List.mem_singleton_self a)
  refine ⟨?_, ?_, ?_⟩
  · unfold exportParticipantTotal
    rw [exportContribs_eq_flatMap]
    simp only [List.flatMap_cons, List.flatMap_nil, List.append_nil,
      productContribs, hfilter, List.map_cons, List.map_nil, jsSum_cons]
    simp [jsDiv, if_neg ht, jsSum, jsAdd]
  · simp only [analyticsAmount, List.flatMap_cons, List.flatMap_nil,
      List.append_nil, hfilter, List.map_cons, List.map_nil,
      List.sum_cons, List.sum_nil, add_zero]
  · exact summaryResult_eq_none _
      (summaryCrashes_true ⟨t, pids, [p]⟩ pid p a hpid
        (List.mem_singleton_self p) hmem.1 (by simpa using hmem.2))

/-- C1, witness for the amended claim at the concrete product of exC1. -/
theorem C1_witness :
    exportParticipantTotal ⟨30, [1], [⟨10, 1, [⟨1, 50⟩]⟩]⟩ 1
        = .fin (lineCost ⟨10, 1, [⟨1, 50⟩]⟩ * 50 / totalShare ⟨10, 1, [⟨1, 50⟩]⟩) ∧
    analyticsAmount ⟨30, [1], [⟨10, 1, [⟨1, 50⟩]⟩]⟩ 1
        = lineCost ⟨10, 1, [⟨1, 50⟩]⟩ * 50 / 100 ∧
    summaryResult ⟨30, [1], [⟨10, 1, [⟨1, 50⟩]⟩]⟩ = none := by
  have h := C1_amended 30 [1] ⟨10, 1, [⟨1, 50⟩]⟩ ⟨1, 50⟩ 1 (by simp)
    (by norm_num [totalShare]) (by simp)
  exact ⟨h.1, h.2.1, h.2.2⟩

/-! ### Claim C3 -/

/-- C3, counterexample: the export share_amounts are all computed by
direct multiplication and rounded independently; for a 10.00 product
split three ways they are 3.33 each and sum to 9.99, not to the line
cost 10.00, so no largest-remainder correction is applied to the last
participant. -/
theorem C3_counterexample :
    jsSum (exC3.allocs.map (exportShareAmount exC3)) = .fin (999 / 100) ∧
    lineCost exC3 = 10 ∧
    (999 / 100 : ℚ) ≠ 10 := by
  refine ⟨?_, ?_, by norm_num⟩
  · norm_num [exC3, exportShareAmount, jsDiv, jsSum, jsAdd, round2J, lineCost,
      totalShare, round2]
  · norm_num [exC3, lineCost]

/-- C3, amended: the unrounded per-participant amounts sum to exactly
price x quantity whenever the product's share-sum is nonzero, but each
displayed share_amount is rounded independently (no largest-remainder
step), so the rounded amounts need not sum to the line cost; in the
spec's 9.99 three-way scenario the rounded amounts are 3.33 each and do
sum to exactly 9.99. -/
theorem C3_amended (p : Product) (ht : totalShare p ≠ 0) :
    jsSum (p.allocs.map (fun a =>
        jsDiv (lineCost p * a.share_percentage) (totalShare p)))
      = .fin (lineCost p) ∧
    exC3b.allocs.map (exportShareAmount exC3b)
      = [.fin (333 / 100), .fin (333 / 100), .fin (333 / 100)] ∧
    jsSum (exC3b.allocs.map (exportShareAmount exC3b)) = .fin (lineCost exC3b) := by
  refine ⟨?_, ?_, ?_⟩
  · have hmap : p.allocs.map (fun a =>
          jsDiv (lineCost p * a.share_percentage) (totalShare p))
        = (p.allocs.map (realContrib p)).map JsNum.fin := by
      rw [List.map_map]
      apply List.map_congr_left
      intro a _
      simp only [Function.comp, jsDiv, if_neg ht, realContrib]
    rw [hmap, jsSum_map_fin, sum_realContrib p ht]
  · norm_num [exC3b, exportShareAmount, jsDiv, round2J, lineCost, totalShare, round2]
  · norm_num [exC3b, exportShareAmount, jsDiv, jsSum, jsAdd, round2J, lineCost,
      totalShare, round2]

/-- C3, witness for the amended claim at the 10.00 three-way product. -/
theorem C3_witness :
    jsSum (exC3.allocs.map (fun a =>
        jsDiv (lineCost exC3 * a.share_percentage) (totalShare exC3)))
      = .fin (lineCost exC3) :=
  (C3_amended exC3 (by norm_num [exC3, totalShare])).1

/-! ### Claim C4 -/

/-- C4, counterexample: a product whose single allocation has share 0
is not treated as unallocated and raises no InvalidAllocation error:
the export performs the division by the zero share-sum (0/0, NaN), so
the allocated participant's accumulated total is NaN, not 0 — and the
summary endpoint cannot even reach a division: it answers 500 on this
bill. -/
theorem C4_counterexample :
    productContribs exC4 1 = [JsNum.nan] ∧
    exportParticipantTotal ⟨0, [1], [exC4]⟩ 1 = JsNum.nan ∧
    exportParticipantTotal ⟨0, [1], [exC4]⟩ 1 ≠ .fin 0 ∧
    summaryResult ⟨0, [1], [exC4]⟩ = none := by
  refine ⟨?_, ?_, ?_, ?_⟩
  · norm_num [exC4, productContribs, jsDiv, lineCost, totalShare]
  · norm_num [exC4, exportParticipantTotal, exportContribs, productContribs,
      jsSum, jsAdd, jsDiv, lineCost, totalShare]
  · rw [show exportParticipantTotal ⟨0, [1], [exC4]⟩ 1 = JsNum.nan by
      norm_num [exC4, exportParticipantTotal, exportContribs, productContribs,
        jsSum, jsAdd, jsDiv, lineCost, totalShare]]
    simp
  · exact summaryResult_eq_none _ rfl

/-- C4, amended: a product with an empty allocation list contributes
nothing in the export path (effectively unallocated, no error), but
there is no InvalidAllocation error anywhere: when a product's shares
sum to 0 the export performs the division by the zero share-sum and
every contribution is non-finite (NaN when every share is 0), and the
summary handler never reaches the division — it answers 500 on any
bill in which the product carries an allocation of a bill participant. -/
theorem C4_amended (p : Product) (pid : Nat) :
    (p.allocs = [] → productContribs p pid = []) ∧
    (totalShare p = 0 → ∀ c ∈ productContribs p pid, ∀ q : ℚ, c ≠ .fin q) ∧
    ((∀ a ∈ p.allocs, a.share_percentage = 0) →
      ∀ c ∈ productContribs p pid, c = JsNum.nan) ∧
    (∀ b : Bill, p ∈ b.products → pid ∈ b.participant_ids →
      ∀ a ∈ p.allocs, a.participant_id = pid → summaryResult b = none) := by
  refine ⟨productContribs_nil p pid, productContribs_not_fin p pid,
    productContribs_nan p pid, ?_⟩
  intro b hp hpid a ha hapid
  exact summaryResult_eq_none b (summaryCrashes_true b pid p a hpid hp ha hapid)

/-- C4, witness: an empty allocation list yields no contributions, the
zero-share product exC4 produces only NaN contributions, and the
summary request on a bill holding it answers 500. -/
theorem C4_witness :
    productContribs ⟨5, 2, []⟩ 1 = [] ∧
    (∀ c ∈ productContribs exC4 1, c = JsNum.nan) ∧
    summaryResult ⟨0, [1], [exC4]⟩ = none := by
  refine ⟨(C4_amended ⟨5, 2, []⟩ 1).1 rfl, ?_, ?_⟩
  · exact (C4_amended exC4 1).2.2.1
      (by intro a ha; simp only [exC4, List.mem_singleton] at ha; rw [ha])
  · exact (C4_amended exC4 1).2.2.2 ⟨0, [1], [exC4]⟩ (by simp) (by simp)
      ⟨1, 0⟩ (by simp [exC4]) rfl

/-! ### Claim C5 -/

/-- C5, counterexample: in a bill with a zero-share product and a valid
50/50 product of line cost 6, participant 1 (allocated to both)
accumulates NaN instead of the 3 owed on the valid product, and the
display masking `|| 0` then shows 0.00 — the failing product is not
excluded from their total, it silently destroys it.  Participant 2
still gets 3, and the summary endpoint answers 500 on this bill. -/
theorem C5_counterexample :
    exportParticipantTotal exC5 1 = JsNum.nan ∧
    round2J (orZero (exportParticipantTotal exC5 1)) = .fin 0 ∧
    (JsNum.fin 0) ≠ .fin 3 ∧
    exportParticipantTotal exC5 2 = .fin 3 ∧
    summaryResult exC5 = none := by
  refine ⟨?_, ?_, by simp, ?_, ?_⟩
  · norm_num [exC5, exportParticipantTotal, exportContribs, productContribs,
      jsSum, jsAdd, jsDiv, lineCost, totalShare]
  · rw [show exportParticipantTotal exC5 1 = JsNum.nan by
      norm_num [exC5, exportParticipantTotal, exportContribs, productContribs,
        jsSum, jsAdd, jsDiv, lineCost, totalShare]]
    norm_num [orZero, round2J, round2]
  · norm_num [exC5, exportParticipantTotal, exportContribs, productContribs,
      jsSum, jsAdd, jsDiv, lineCost, totalShare]
  · exact summaryResult_eq_none exC5 rfl

/-- C5, amended: in the export path, products with no allocations are
excluded from every participant's total and the rest of the bill is
computed normally (the request is not aborted; there is no
orphaned_amount accumulator), and totals are finite and exact when
every product carrying one of the participant's allocations has a
nonzero share-sum; but a product whose shares are all zero makes every
allocated participant's accumulated total NaN, which the display then
masks to 0.00 — discarding that participant's valid shares from other
products; and the summary request is aborted with a 500 on every bill
whose allocations touch a bill participant. -/
theorem C5_amended (b : Bill) (pid : Nat) :
    exportParticipantTotal b pid = exportParticipantTotal (dropEmptyAlloc b) pid ∧
    ((∀ p ∈ b.products, productContribs p pid ≠ [] → totalShare p ≠ 0) →
      exportParticipantTotal b pid = .fin (realTotal b pid)) ∧
    (∀ p ∈ b.products, (∀ a ∈ p.allocs, a.share_percentage = 0) →
      productContribs p pid ≠ [] →
      exportParticipantTotal b pid = JsNum.nan ∧
      round2J (orZero (exportParticipantTotal b pid)) = .fin (round2 0)) ∧
    (summaryCrashes b = true → summaryResult b = none) := by
  refine ⟨exportParticipantTotal_dropEmpty b pid,
    exportParticipantTotal_eq_real b pid, ?_, summaryResult_eq_none b⟩
  intro p hp hz hc
  have hn := exportParticipantTotal_nan b pid p hp hz hc
  exact ⟨hn, by rw [hn]; rfl⟩

/-- C5, witness: the four parts of the amended claim at concrete
bills. -/
theorem C5_witness :
    exportParticipantTotal ⟨30, [1], [⟨4, 1, [⟨1, 100⟩]⟩, ⟨9, 1, []⟩]⟩ 1
        = exportParticipantTotal
            (dropEmptyAlloc ⟨30, [1], [⟨4, 1, [⟨1, 100⟩]⟩, ⟨9, 1, []⟩]⟩) 1 ∧
    exportParticipantTotal ⟨30, [1], [⟨4, 1, [⟨1, 100⟩]⟩]⟩ 1
        = .fin (realTotal ⟨30, [1], [⟨4, 1, [⟨1, 100⟩]⟩]⟩ 1) ∧
    exportParticipantTotal exC5 1 = JsNum.nan ∧
    summaryResult exC5 = none := by
  refine ⟨(C5_amended ⟨30, [1], [⟨4, 1, [⟨1, 100⟩]⟩, ⟨9, 1, []⟩]⟩ 1).1, ?_, ?_, ?_⟩
  · apply (C5_amended ⟨30, [1], [⟨4, 1, [⟨1, 100⟩]⟩]⟩ 1).2.1
    intro p hp hc
    simp only [List.mem_singleton] at hp
    subst hp
    norm_num [totalShare]
  · exact ((C5_amended exC5 1).2.2.1 ⟨10, 1, [⟨1, 0⟩]⟩ (by simp [exC5])
      (by intro a ha; simp only [List.mem_singleton] at ha; rw [ha])
      (by norm_num [productContribs, jsDiv, lineCost, totalShare])).1
  · exact (C5_amended exC5 1).2.2.2 rfl

/-! ### Claim C2 -/

/-- C2, counterexample: the summary endpoint includes no reconciliation
record for any bill: for the allocated bill exC2 it answers 500, and
for the allocation-free bill exC2b (computed total 4) the successful
response carries exactly the values 30, 30, 0, 1, 0 — stated total,
counts and zero owed — so computed_total 4 appears nowhere. -/
theorem C2_counterexample :
    summaryResult exC2 = none ∧
    computedTotal exC2b = 4 ∧
    (summaryResult exC2b).map responseNums = some [30, 30, 0, 1, 0] ∧
    (4 : ℚ) ∉ [(30 : ℚ), 30, 0, 1, 0] := by
  refine ⟨?_, ?_, ?_, by norm_num⟩
  · exact summaryResult_eq_none exC2 rfl
  · norm_num [exC2b, computedTotal, lineCost]
  · rw [summaryResult_no_crash exC2b rfl]
    norm_num [exC2b, responseNums, jsNumVals, round2J, orZero, round2]

/-- C2, amended: the summary endpoint answers 500 for every bill in
which a bill participant has an allocation row, and for allocation-free
bills returns only the stated total (twice), zero per-participant
totals and counts — never a reconciliation record.  The reconciliation
identity nevertheless holds of the export computation: when every
allocated product has a nonzero share-sum, the participant-id list is
duplicate-free and covers every allocation, the total allocated equals
computed_total minus the orphaned amount. -/
theorem C2_amended (b : Bill)
    (hshare : ∀ p ∈ b.products, p.allocs ≠ [] → totalShare p ≠ 0)
    (hcov : ∀ p ∈ b.products, ∀ a ∈ p.allocs, a.participant_id ∈ b.participant_ids)
    (hnd : b.participant_ids.Nodup) :
    (summaryCrashes b = true → summaryResult b = none) ∧
    (summaryCrashes b = false → summaryResult b = some
      { bill_total := round2 b.total_amount
        owed := b.participant_ids.map (fun pid => (pid, round2J (orZero (.fin 0))))
        products := []
        total_items := 0
        total_participants := b.participant_ids.length
        summary_total := round2 b.total_amount }) ∧
    allocatedTotal b = .fin (computedTotal b - orphanedTotal b) :=
  ⟨summaryResult_eq_none b, summaryResult_no_crash b,
   allocated_add_orphaned b hshare hcov hnd⟩

/-- C2, witness for the amended claim at a bill with one allocated
product (shares summing to 75) and one orphaned product. -/
theorem C2_witness :
    summaryResult exC2w = none ∧
    allocatedTotal exC2w = .fin (computedTotal exC2w - orphanedTotal exC2w) := by
  have h := C2_amended exC2w ?hs ?hc ?hn
  case hs =>
    intro p hp hne
    simp only [exC2w, List.mem_cons, List.not_mem_nil, or_false] at hp
    rcases hp with rfl | rfl
    · norm_num [totalShare]
    · exact absurd rfl hne
  case hc =>
    intro p hp a ha
    simp only [exC2w, List.mem_cons, List.not_mem_nil, or_false] at hp
    rcases hp with rfl | rfl
    · simp only [List.mem_singleton] at ha
      subst ha
      simp [exC2w]
    · exact absurd ha (List.not_mem_nil a)
  case hn => simp [exC2w]
  exact ⟨h.1 rfl, h.2.2⟩

/-! ### Claim C6 -/

/-- C6, counterexample: the two endpoints do not perform the same
computation.  On exC6 (one product shared by two participants) the
summary answers 500 while the export responds with total_items 1; and
even on the allocation-free bill exC6b, where both respond, the
summary reports total_items 0 and an empty products array while the
export reports total_items 1. -/
theorem C6_counterexample :
    summaryResult exC6 = none ∧
    (exportOf exC6).total_items = 1 ∧
    (summaryResult exC6b).map (fun r => r.total_items) = some 0 ∧
    (exportOf exC6b).total_items = 1 ∧
    (0 : Nat) ≠ 1 := by
  refine ⟨?_, ?_, ?_, ?_, by decide⟩
  · exact summaryResult_eq_none exC6 rfl
  · simp [exC6, exportOf]
  · rw [summaryResult_no_crash exC6b rfl]
    rfl
  · simp [exC6b, exportOf]

/-- C6, amended: the summary endpoint answers 500 on every bill in
which a bill participant has an allocation row, so the two endpoints
never both respond there; on allocation-free bills both respond and
agree on the bill totals, participant count and (zero) per-participant
totals, but still differ in the products array and the counts: the
summary reports no products and total_items 0 while the export lists
every product and reports total_items = number of products. -/
theorem C6_amended (b : Bill) :
    (summaryCrashes b = true → summaryResult b = none) ∧
    (summaryCrashes b = false → ∀ r, summaryResult b = some r →
      r.bill_total = (exportOf b).bill_total ∧
      r.summary_total = (exportOf b).summary_total ∧
      r.total_participants = (exportOf b).total_participants ∧
      r.owed = (exportOf b).owed ∧
      r.products = [] ∧
      r.total_items = 0 ∧
      (exportOf b).total_items = b.products.length) := by
  refine ⟨summaryResult_eq_none b, ?_⟩
  intro h r hr
  rw [summaryResult_no_crash b h] at hr
  have hr2 := Option.some.inj hr
  subst hr2
  refine ⟨rfl, rfl, rfl, ?_, rfl, rfl, rfl⟩
  show b.participant_ids.map _ = b.participant_ids.map _
  apply List.map_congr_left
  intro pid hpid
  rw [exportTotal_zero_of_not_crash b h pid hpid]

/-- C6, witness for the amended claim: the crash half at exC6 and the
no-crash half at exC6b. -/
theorem C6_witness :
    summaryResult exC6 = none ∧
    (exportOf exC6b).total_items = exC6b.products.length := by
  constructor
  · exact (C6_amended exC6).1 rfl
  · have h := (C6_amended exC6b).2 rfl
    exact (h _ (summaryResult_no_crash exC6b rfl)).2.2.2.2.2.2

/-! ### Claim C7 -/

/-- C7: for a non-empty, duplicate-free participant_ids list of length
N, the product routes create exactly one allocation per selected
participant, each with share percentage 100/N. -/
theorem C7_equal_split (pids : List Nat) (_hne : pids ≠ []) (hnd : pids.Nodup) :
    (mkAllocs pids).length = pids.length ∧
    (∀ a ∈ mkAllocs pids, a.share_percentage = 100 / (pids.length : ℚ)) ∧
    (∀ pid ∈ pids,
      ((mkAllocs pids).filter (fun a => a.participant_id == pid)).length = 1) := by
  refine ⟨List.length_map _ _, ?_, ?_⟩
  · intro a ha
    rcases List.mem_map.mp ha with ⟨x, _, rfl⟩
    rfl
  · intro pid hpid
    unfold mkAllocs
    rw [List.filter_map, List.length_map, ← List.countP_eq_length_filter]
    exact List.count_eq_one_of_mem hnd hpid

/-- C7, witness at the two-participant list [4, 7] (each share 50). -/
theorem C7_witness :
    (mkAllocs [4, 7]).length = ([4, 7] : List Nat).length ∧
    (∀ a ∈ mkAllocs [4, 7],
      a.share_percentage = 100 / ((([4, 7] : List Nat).length : ℚ))) ∧
    (∀ pid ∈ ([4, 7] : List Nat),
      ((mkAllocs [4, 7]).filter (fun a => a.participant_id == pid)).length = 1) :=
  C7_equal_split [4, 7] (by decide) (by decide)

/-! ### Claim C8 -/

/-- C8: a premium-status user passes every Limit Gate check regardless
of usage counts; a non-premium user with the free-tier limits 3/5/2 may
create a bill iff fewer than 3 bills exist this month, add a
participant iff the current count is below 5, and create a template iff
fewer than 2 templates exist. -/
theorem C8_limit_gate (u : UserRow) (billsCount templatesCount currentCount : Int) :
    (u.subscription_status = "premium" →
      canCreateBill u billsCount templatesCount = true ∧
      canAddParticipants u billsCount templatesCount currentCount = true ∧
      canCreateTemplate u billsCount templatesCount = true) ∧
    (u.subscription_status ≠ "premium" →
      u.bills_limit = 3 → u.participants_limit = 5 → u.templates_limit = 2 →
      (canCreateBill u billsCount templatesCount = true ↔ billsCount < 3) ∧
      (canAddParticipants u billsCount templatesCount currentCount = true
        ↔ currentCount < 5) ∧
      (canCreateTemplate u billsCount templatesCount = true
        ↔ templatesCount < 2)) := by
  unfold canCreateBill canAddParticipants canCreateTemplate getUserLimits
  constructor
  · intro h
    simp [h]
  · intro h h3 h5 h2
    simp only [h3, h5, h2, if_neg h]
    refine ⟨?_, ?_, ?_⟩ <;> simp only [decide_eq_true_eq] <;> omega

/-- C8, witness: both tiers at concrete counts on each side of the
free-tier ceilings. -/
theorem C8_witness :
    canCreateBill premiumUser 1000 0 = true ∧
    canCreateBill freeUser 2 0 = true ∧
    ¬ canCreateBill freeUser 3 0 = true ∧
    canAddParticipants freeUser 0 0 4 = true ∧
    ¬ canAddParticipants freeUser 0 0 5 = true ∧
    canCreateTemplate freeUser 0 1 = true ∧
    ¬ canCreateTemplate freeUser 0 2 = true := by
  refine ⟨((C8_limit_gate premiumUser 1000 0 0).1 rfl).1, ?_, ?_, ?_, ?_, ?_, ?_⟩
  · exact ((C8_limit_gate freeUser 2 0 0).2 (by decide) rfl rfl rfl).1.mpr (by decide)
  · intro hx
    exact absurd (((C8_limit_gate freeUser 3 0 0).2 (by decide) rfl rfl rfl).1.mp hx)
      (by decide)
  · exact ((C8_limit_gate freeUser 0 0 4).2 (by decide) rfl rfl rfl).2.1.mpr (by decide)
  · intro hx
    exact absurd (((C8_limit_gate freeUser 0 0 5).2 (by decide) rfl rfl rfl).2.1.mp hx)
      (by decide)
  · exact ((C8_limit_gate freeUser 0 1 0).2 (by decide) rfl rfl rfl).2.2.mpr (by decide)
  · intro hx
    exact absurd (((C8_limit_gate freeUser 0 2 0).2 (by decide) rfl rfl rfl).2.2.mp hx)
      (by decide)

/-! ### Claim C9 -/

/-- C9, counterexample: computing a summary indeed modifies nothing,
but the summary response does not surface the stated total alongside
per-participant amounts: at exDB's bill (which has an allocation row)
the summary request answers 500 — no totals at all — while the export
responds normally. -/
theorem C9_counterexample :
    (summaryHandler exDB 1).2 = HandlerResult.errored ∧
    (exportHandler exDB 1).2
      = HandlerResult.ok (exportOf ⟨20, [1], [⟨8, 1, [⟨1, 100⟩]⟩]⟩) :=
  ⟨rfl, rfl⟩

/-- C9, amended: neither handler modifies persisted state (both issue
only find queries).  The export response always surfaces the stated
total (rounded) alongside the per-participant amounts (masked by
`|| 0` and rounded); the summary surfaces the stated total only for
bills with no allocation rows, and answers 500 otherwise. -/
theorem C9_amended (db : DB) (bid : Nat) :
    (summaryHandler db bid).1 = db ∧
    (exportHandler db bid).1 = db ∧
    (∀ b : Bill, findBill db bid = some b →
      (exportHandler db bid).2 = HandlerResult.ok (exportOf b) ∧
      (exportOf b).bill_total = round2 b.total_amount ∧
      (exportOf b).owed = b.participant_ids.map (fun pid =>
          (pid, round2J (orZero (exportParticipantTotal b pid)))) ∧
      (summaryCrashes b = true → (summaryHandler db bid).2 = HandlerResult.errored) ∧
      (summaryCrashes b = false → ∀ r, summaryResult b = some r →
        (summaryHandler db bid).2 = HandlerResult.ok r ∧
        r.bill_total = round2 b.total_amount)) := by
  refine ⟨?_, ?_, ?_⟩
  · unfold summaryHandler
    cases findBill db bid with
    | none => rfl
    | some b =>
        show (match summaryResult b with
          | none => (db, HandlerResult.errored)
          | some r => (db, HandlerResult.ok r)).1 = db
        cases summaryResult b <;> rfl
  · unfold exportHandler
    cases findBill db bid <;> rfl
  · intro b hb
    unfold summaryHandler exportHandler
    rw [hb]
    refine ⟨rfl, rfl, rfl, ?_, ?_⟩
    · intro hc
      show (match summaryResult b with
        | none => (db, HandlerResult.errored)
        | some r => (db, HandlerResult.ok r)).2 = HandlerResult.errored
      rw [summaryResult_eq_none b hc]
    · intro hc r hr
      constructor
      · show (match summaryResult b with
          | none => (db, HandlerResult.errored)
          | some r => (db, HandlerResult.ok r)).2 = HandlerResult.ok r
        rw [hr]
      · rw [summaryResult_no_crash b hc] at hr
        rw [← Option.some.inj hr]

/-- C9, witness at the one-bill database exDB (crash branch) and at
the export side. -/
theorem C9_witness :
    (summaryHandler exDB 1).1 = exDB ∧
    (exportHandler exDB 1).1 = exDB ∧
    (summaryHandler exDB 1).2 = HandlerResult.errored ∧
    (exportHandler exDB 1).2
      = HandlerResult.ok (exportOf ⟨20, [1], [⟨8, 1, [⟨1, 100⟩]⟩]⟩) := by
  have h := C9_amended exDB 1
  have hb := h.2.2 ⟨20, [1], [⟨8, 1, [⟨1, 100⟩]⟩]⟩ rfl
  exact ⟨h.1, h.2.1, hb.2.2.2.1 rfl, hb.1⟩

/-! ### Claim C10 -/

/-- C10: getUserLimits reports non-negative remaining quotas for every
user and any usage counts, and clamps to 0 whenever the count reaches
or exceeds the limit. -/
theorem C10_nonneg (u : UserRow) (billsCount templatesCount : Int) :
    0 ≤ (getUserLimits u billsCount templatesCount).bills_remaining ∧
    0 ≤ (getUserLimits u billsCount templatesCount).templates_remaining ∧
    (u.bills_limit ≤ billsCount →
      (getUserLimits u billsCount templatesCount).bills_remaining = 0) ∧
    (u.templates_limit ≤ templatesCount →
      (getUserLimits u billsCount templatesCount).templates_remaining = 0) := by
  unfold getUserLimits
  refine ⟨le_max_left _ _, le_max_left _ _, fun h => ?_, fun h => ?_⟩ <;>
    simp <;> omega

/-- C10, witness: a free-tier user far over both quotas still gets
remaining quotas of exactly 0. -/
theorem C10_witness :
    0 ≤ (getUserLimits freeUser 10 10).bills_remaining ∧
    (getUserLimits freeUser 10 10).bills_remaining = 0 ∧
    (getUserLimits freeUser 10 10).templates_remaining = 0 := by
  have h := C10_nonneg freeUser 10 10
  exact ⟨h.1, h.2.2.1 (by norm_num [freeUser]), h.2.2.2 (by norm_num [freeUser])⟩

end SplitGen
